import Mathlib

/-!
Shallow embedding of the concurrent-benchmark core of `real_benchmark.py`
(llamabench): the single-request prober `measure_single_request`, the
metrics aggregator `_aggregate_results` (with its inner `percentile`
helper), and the orchestrating `run_real_benchmark`.

Timing and network input/output are abstracted as data: each streamed line
carries the value of `time.perf_counter() - start_time` observed at its
arrival, and the network interaction of a request is an oracle value of
type `NetEvent` (a completed response with its status, body lines and
whole-body JSON view, a timeout, or any other raised failure — the latter
two carrying the elapsed time at the exception handler).  Python floats
are modelled by exact rationals; Python `round(x, n)` is modelled by
rounding `x * 10^n` to the nearest integer (ties do not occur in any
concrete value appearing below).
-/

namespace Llamabench

/-- Result of `json.loads` on one streamed line, abstracted to what the
prober inspects: presence of the llama.cpp `content` field, presence of the
ollama `response` field, and the whitespace-word count of that `response`
field (`len(data.get('response', '').split())`). -/
structure ParsedLine where
  hasContent : Bool
  hasResponse : Bool
  responseWords : ℕ
deriving Repr, DecidableEq

/-- One line yielded by `async for line in response.content`: the value of
`time.perf_counter() - start_time` at its arrival, whether the line is
truthy (`if line:`), and the JSON parse result (`none` when `json.loads`
raises and the bare `except: pass` swallows it). -/
structure StreamLine where
  time : ℚ
  truthy : Bool
  parsed : Option ParsedLine
deriving Repr, DecidableEq

/-- The whole-body view `await response.json()` used on the vLLM path:
presence of `choices`, the word count `len(choices[0].get('text', '').split())`,
and the value of `time.perf_counter() - start_time` right after the parse.
A `response.json()` that raises is represented at the `NetEvent` level as
`otherErr`, since the surrounding `except Exception` handles it the same
way as any other failure. -/
structure WholeJson where
  hasChoices : Bool
  words : ℕ
  time : ℚ
deriving Repr, DecidableEq

/-- The closed set of engine kinds dispatched on by `measure_single_request`. -/
inductive Engine
  | llamacpp
  | ollama
  | vllm
deriving Repr, DecidableEq

/-- Outcome of the network interaction of one request, as observed by
`measure_single_request`: a completed response (status, elapsed time at the
non-200 early return, body lines, whole-body JSON view, elapsed time at
stream completion), an `asyncio.TimeoutError`, or any other exception. -/
inductive NetEvent
  | response (status : ℕ) (statusElapsed : ℚ) (lines : List StreamLine)
      (whole : WholeJson) (totalTime : ℚ)
  | timeoutErr (elapsed : ℚ)
  | otherErr (msg : String) (elapsed : ℚ)
deriving Repr, DecidableEq

/-- The dictionary returned by `measure_single_request`. -/
structure Sample where
  ttft : Option ℚ
  total_time : ℚ
  tokens : ℕ
  success : Bool
  error : Option String
deriving Repr, DecidableEq

/-- The dictionary returned by `_aggregate_results`. -/
structure AggResult where
  successful_requests : ℕ
  failed_requests : ℕ
  ttft_p50 : ℚ
  ttft_p95 : ℚ
  ttft_p99 : ℚ
  tokens_per_sec : ℚ
  total_tokens : ℕ
  error_rate : ℚ
deriving Repr, DecidableEq

/-- Token events one line contributes on the llama.cpp path:
`if line:` then `if 'content' in data: tokens += 1`, with parse failures
swallowed. -/
def llamaLineTokens (l : StreamLine) : ℕ :=
  if l.truthy then
    match l.parsed with
    | some d => if d.hasContent then 1 else 0
    | none => 0
  else 0

/-- Token events one line contributes on the ollama path:
`if line:` then `if 'response' in data: tokens += len(data.get('response', '').split())`. -/
def ollamaLineTokens (l : StreamLine) : ℕ :=
  if l.truthy then
    match l.parsed with
    | some d => if d.hasResponse then d.responseWords else 0
    | none => 0
  else 0

/-- The streaming `async for` loop of `measure_single_request`: for each
line, first `if ttft is None: ttft = time.perf_counter() - start_time`
(before any truthiness or parse check), then accumulate that line's token
events.  Returns the final `(ttft, tokens)` pair. -/
def streamLoop (tok : StreamLine → ℕ) : List StreamLine → Option ℚ × ℕ → Option ℚ × ℕ
  | [], s => s
  | l :: rest, s =>
      streamLoop tok rest
        ((match s.1 with
          | none => some l.time
          | some t => some t), s.2 + tok l)

/-- The engine dispatch inside the 200-status branch of
`measure_single_request`: the `(ttft, tokens)` state after consuming the
body.  llama.cpp and ollama iterate the lines; vLLM reads the whole body,
sets `ttft` after the JSON parse and takes
`choices[0].get('text', '').split()` when `choices` is present. -/
def engineParse (e : Engine) (lines : List StreamLine) (whole : WholeJson) :
    Option ℚ × ℕ :=
  match e with
  | .llamacpp => streamLoop llamaLineTokens lines (none, 0)
  | .ollama => streamLoop ollamaLineTokens lines (none, 0)
  | .vllm => (some whole.time, if whole.hasChoices then whole.words else 0)

/-- `measure_single_request`: one full request/response cycle producing one
`Sample`, its network interaction abstracted as a `NetEvent`.  Mirrors the
source: non-200 early return; stream/body consumption; `ttft = total_time`
when never set; `tokens if tokens > 0 else 50`; `asyncio.TimeoutError` and
generic `Exception` handlers. -/
def measure_single_request (e : Engine) (ev : NetEvent) : Sample :=
  match ev with
  | .timeoutErr elapsed =>
      { ttft := none, total_time := elapsed, tokens := 0, success := false,
        error := some "Timeout" }
  | .otherErr msg elapsed =>
      { ttft := none, total_time := elapsed, tokens := 0, success := false,
        error := some msg }
  | .response status statusElapsed lines whole totalTime =>
      if status ≠ 200 then
        { ttft := none, total_time := statusElapsed, tokens := 0,
          success := false, error := some ("HTTP " ++ toString status) }
      else
        let parsed := engineParse e lines whole
        { ttft := some (parsed.1.getD totalTime), total_time := totalTime,
          tokens := if parsed.2 > 0 then parsed.2 else 50, success := true,
          error := none }

/-- Python `round(x, 3)` on the exact-rational model. -/
def pyRound3 (q : ℚ) : ℚ := (round (q * 1000) : ℤ) / 1000

/-- Python `round(x, 1)` on the exact-rational model. -/
def pyRound1 (q : ℚ) : ℚ := (round (q * 10) : ℤ) / 10

/-- The inner `percentile(data, p)` of `_aggregate_results`:
`k = (len(data) - 1) * p / 100`, `f = int(k)`,
`c = f + 1 if f < len(data) - 1 else f`,
`data[f] + (k - f) * (data[c] - data[f])`.  Python `int` truncation is
`Int.toNat ∘ Int.floor` on the nonnegative `k` arising from `p ≥ 0`. -/
def percentile (data : List ℚ) (p : ℚ) : ℚ :=
  if data = [] then 0
  else
    let k : ℚ := ((data.length : ℚ) - 1) * p / 100
    let f : ℕ := (⌊k⌋).toNat
    let c : ℕ := if f < data.length - 1 then f + 1 else f
    data.getD f 0 + (k - (f : ℚ)) * (data.getD c 0 - data.getD f 0)

/-- The ascending-sorted TTFT list of the successful samples
(`ttfts = [r['ttft'] for r in successful]; ttfts.sort()`).  Successful
samples always carry a set `ttft` (see `measure_success_fields`), so the
extraction drops nothing on prober-produced samples. -/
def sortedTtfts (successful : List Sample) : List ℚ :=
  (successful.filterMap Sample.ttft).mergeSort

/-- `_aggregate_results(results, duration)`: partition on `r['success']`,
early return when no successful sample, else percentiles of the sorted
TTFTs, token totals and error rate. -/
def aggregate_results (results : List Sample) (duration : ℤ) : AggResult :=
  let successful := results.filter (fun r => r.success)
  let failed := results.filter (fun r => !r.success)
  if successful = [] then
    { successful_requests := 0, failed_requests := failed.length,
      ttft_p50 := 0, ttft_p95 := 0, ttft_p99 := 0, tokens_per_sec := 0,
      total_tokens := 0, error_rate := 1 }
  else
    let ttfts := sortedTtfts successful
    let total_tokens := (successful.map Sample.tokens).sum
    let tokens_per_sec : ℚ :=
      if duration > 0 then (total_tokens : ℚ) / (duration : ℚ) else 0
    { successful_requests := successful.length,
      failed_requests := failed.length,
      ttft_p50 := pyRound3 (percentile ttfts 50),
      ttft_p95 := pyRound3 (percentile ttfts 95),
      ttft_p99 := pyRound3 (percentile ttfts 99),
      tokens_per_sec := pyRound1 tokens_per_sec,
      total_tokens := total_tokens,
      error_rate :=
        if results ≠ [] then (failed.length : ℚ) / (results.length : ℚ)
        else 0 }

/-- `run_real_benchmark`: health check first; on failure return `None`
without running the load generator, else run it and aggregate.  The load
generator's collected samples are the oracle argument `samples`. -/
def run_real_benchmark (healthy : Bool) (samples : List Sample)
    (duration : ℤ) : Option AggResult :=
  if healthy then some (aggregate_results samples duration) else none

/-- Modelled from the spec: the percentile formula as the claim words it,
with `c = min(f + 1, n - 1)` instead of the source's conditional. -/
def interpPercentile (data : List ℚ) (p : ℚ) : ℚ :=
  if data = [] then 0
  else
    let k : ℚ := ((data.length : ℚ) - 1) * p / 100
    let f : ℕ := (⌊k⌋).toNat
    let c : ℕ := min (f + 1) (data.length - 1)
    data.getD f 0 + (k - (f : ℚ)) * (data.getD c 0 - data.getD f 0)

/-- Modelled from the spec: the arrival time of the first content-bearing
line of a stream — the first line yielding at least one token event under
the engine's parse. -/
def firstContentTime (tok : StreamLine → ℕ) (lines : List StreamLine) :
    Option ℚ :=
  (lines.filter (fun l => tok l > 0)).head?.map StreamLine.time

/-- A line on the llama.cpp path that actually yields a token event:
truthy, valid JSON, carrying a `content` field. -/
def llamaContentLine (l : StreamLine) : Bool :=
  l.truthy && l.parsed.elim false ParsedLine.hasContent

/-- A line on the ollama path that can yield token events: truthy, valid
JSON, carrying a `response` field. -/
def ollamaContentLine (l : StreamLine) : Bool :=
  l.truthy && l.parsed.elim false ParsedLine.hasResponse

section Helpers

lemma streamLoop_fst_some (tok : StreamLine → ℕ) :
    ∀ (lines : List StreamLine) (t : ℚ) (tk : ℕ),
      (streamLoop tok lines (some t, tk)).1 = some t := by
  intro lines
  induction lines with
  | nil => intro t tk; rfl
  | cons a rest ih => intro t tk; simpa [streamLoop] using ih t (tk + tok a)

lemma streamLoop_fst (tok : StreamLine → ℕ) (lines : List StreamLine) :
    (streamLoop tok lines (none, 0)).1 = lines.head?.map StreamLine.time := by
  cases lines with
  | nil => rfl
  | cons a rest => simpa [streamLoop] using streamLoop_fst_some tok rest a.time _

lemma streamLoop_snd (tok : StreamLine → ℕ) :
    ∀ (lines : List StreamLine) (s : Option ℚ × ℕ),
      (streamLoop tok lines s).2 = s.2 + (lines.map tok).sum := by
  intro lines
  induction lines with
  | nil => intro s; simp [streamLoop]
  | cons a rest ih =>
      intro s
      cases s with
      | mk t tk => simp [streamLoop, ih]; ring

lemma sum_map_filter_of_vanish {α : Type} (tok : α → ℕ) (p : α → Bool)
    (h : ∀ l, p l = false → tok l = 0) :
    ∀ lines : List α, ((lines.filter p).map tok).sum = (lines.map tok).sum := by
  intro lines
  induction lines with
  | nil => rfl
  | cons a rest ih =>
      by_cases ha : p a
      · simp [List.filter_cons, ha, ih]
      · have ha' : p a = false := by simpa using ha
        simp [List.filter_cons, ha', ih, h a ha']

lemma length_filter_split (samples : List Sample) :
    (samples.filter (fun r => r.success)).length +
      (samples.filter (fun r => !r.success)).length = samples.length := by
  simpa using (List.length_eq_length_filter_add (fun r : Sample => r.success)).symm

lemma floor_toNat_lb (k : ℚ) (hk : 0 ≤ k) : ((⌊k⌋.toNat : ℚ)) ≤ k := by
  have h0 : (0 : ℤ) ≤ ⌊k⌋ := Int.floor_nonneg.mpr hk
  have h1 : ((⌊k⌋.toNat : ℚ)) = ((⌊k⌋ : ℤ) : ℚ) := by
    exact_mod_cast congrArg (fun z : ℤ => (z : ℚ)) (Int.toNat_of_nonneg h0)
  rw [h1]
  exact Int.floor_le k

lemma floor_toNat_ub (k : ℚ) (hk : 0 ≤ k) : k < ((⌊k⌋.toNat : ℚ)) + 1 := by
  have h0 : (0 : ℤ) ≤ ⌊k⌋ := Int.floor_nonneg.mpr hk
  have h1 : ((⌊k⌋.toNat : ℚ)) = ((⌊k⌋ : ℤ) : ℚ) := by
    exact_mod_cast congrArg (fun z : ℤ => (z : ℚ)) (Int.toNat_of_nonneg h0)
  rw [h1]
  exact Int.lt_floor_add_one k

lemma floor_toNat_le_of_le (k : ℚ) (n : ℕ) (h : k ≤ (n : ℚ) - 1) :
    (⌊k⌋).toNat ≤ n - 1 := by
  have h2 : ⌊(((n : ℤ) - 1 : ℤ) : ℚ)⌋ = (n : ℤ) - 1 := Int.floor_intCast _
  have h3 : ⌊k⌋ ≤ (n : ℤ) - 1 := by
    have h4 : k ≤ (((n : ℤ) - 1 : ℤ) : ℚ) := by push_cast; linarith
    have := Int.floor_le_floor h4
    rwa [h2] at this
  omega

lemma sorted_getD_mono (v : List ℚ) (hv : List.Sorted (· ≤ ·) v) {i j : ℕ}
    (hij : i ≤ j) (hj : j < v.length) : v.getD i 0 ≤ v.getD j 0 := by
  have hi : i < v.length := lt_of_le_of_lt hij hj
  rw [List.getD_eq_getElem v 0 hi, List.getD_eq_getElem v 0 hj]
  have := hv.rel_get_of_le (a := ⟨i, hi⟩) (b := ⟨j, hj⟩) hij
  simpa using this

lemma percentile_eq_interp (v : List ℚ) (p : ℚ) (h100 : p ≤ 100) :
    percentile v p = interpPercentile v p := by
  by_cases hv : v = []
  · simp [percentile, interpPercentile, hv]
  · have hn : 1 ≤ v.length := List.length_pos.mpr hv
    have hn1 : (0 : ℚ) ≤ (v.length : ℚ) - 1 := by
      have : (1 : ℚ) ≤ (v.length : ℚ) := by exact_mod_cast hn
      linarith
    simp only [percentile, interpPercentile, if_neg hv]
    set k : ℚ := ((v.length : ℚ) - 1) * p / 100 with hkdef
    have hkle : k ≤ (v.length : ℚ) - 1 := by
      rw [hkdef, div_le_iff₀ (by norm_num : (0 : ℚ) < 100)]
      nlinarith [mul_le_mul_of_nonneg_left h100 hn1]
    set f : ℕ := (⌊k⌋).toNat with hfdef
    have hfle : f ≤ v.length - 1 := floor_toNat_le_of_le k v.length hkle
    have hceq : (if f < v.length - 1 then f + 1 else f) =
        min (f + 1) (v.length - 1) := by
      split <;> omega
    rw [hceq]

lemma percentile_mono (v : List ℚ) (hv : List.Sorted (· ≤ ·) v)
    (p q : ℚ) (hp : 0 ≤ p) (hpq : p ≤ q) (hq : q ≤ 100) :
    percentile v p ≤ percentile v q := by
  by_cases hemp : v = []
  · simp [percentile, hemp]
  · have hn : 1 ≤ v.length := List.length_pos.mpr hemp
    have hn1 : (0 : ℚ) ≤ (v.length : ℚ) - 1 := by
      have : (1 : ℚ) ≤ (v.length : ℚ) := by exact_mod_cast hn
      linarith
    simp only [percentile, if_neg hemp]
    set kp : ℚ := ((v.length : ℚ) - 1) * p / 100 with hkp
    set kq : ℚ := ((v.length : ℚ) - 1) * q / 100 with hkq
    have hkp0 : 0 ≤ kp := by
      rw [hkp]
      exact div_nonneg (mul_nonneg hn1 hp) (by norm_num)
    have hkpq : kp ≤ kq := by
      rw [hkp, hkq]
      exact (div_le_div_iff_of_pos_right (by norm_num)).mpr
        (mul_le_mul_of_nonneg_left hpq hn1)
    have hkq0 : 0 ≤ kq := le_trans hkp0 hkpq
    have hkq_le : kq ≤ (v.length : ℚ) - 1 := by
      rw [hkq, div_le_iff₀ (by norm_num : (0 : ℚ) < 100)]
      nlinarith [mul_le_mul_of_nonneg_left hq hn1]
    set fp : ℕ := (⌊kp⌋).toNat with hfp
    set fq : ℕ := (⌊kq⌋).toNat with hfq
    have hfpq : fp ≤ fq := by
      rw [hfp, hfq]
      exact Int.toNat_le_toNat (Int.floor_le_floor hkpq)
    have hfq_le : fq ≤ v.length - 1 := floor_toNat_le_of_le kq v.length hkq_le
    have hfp_le : fp ≤ v.length - 1 := le_trans hfpq hfq_le
    set cp : ℕ := (if fp < v.length - 1 then fp + 1 else fp) with hcp
    set cq : ℕ := (if fq < v.length - 1 then fq + 1 else fq) with hcq
    have hcp_le : cp ≤ v.length - 1 := by rw [hcp]; split <;> omega
    have hcq_le : cq ≤ v.length - 1 := by rw [hcq]; split <;> omega
    have hfp_cp : fp ≤ cp := by rw [hcp]; split <;> omega
    have hfq_cq : fq ≤ cq := by rw [hcq]; split <;> omega
    have hcp_lt : cp < v.length := by omega
    have hcq_lt : cq < v.length := by omega
    have hfq_lt : fq < v.length := by omega
    have hfpk : ((fp : ℚ)) ≤ kp := floor_toNat_lb kp hkp0
    have hfpk' : kp < ((fp : ℚ)) + 1 := floor_toNat_ub kp hkp0
    have hfqk : ((fq : ℚ)) ≤ kq := floor_toNat_lb kq hkq0
    have hvp : v.getD fp 0 ≤ v.getD cp 0 := sorted_getD_mono v hv hfp_cp hcp_lt
    have hvq : v.getD fq 0 ≤ v.getD cq 0 := sorted_getD_mono v hv hfq_cq hcq_lt
    by_cases heq : fp = fq
    · have hceq : cp = cq := by rw [hcp, hcq, heq]
      rw [heq, hceq]
      have hstep : (kp - (fq : ℚ)) * (v.getD cq 0 - v.getD fq 0) ≤
          (kq - (fq : ℚ)) * (v.getD cq 0 - v.getD fq 0) :=
        mul_le_mul_of_nonneg_right (by linarith [heq ▸ hfpk]) (by linarith)
      linarith [heq ▸ hfpk]
    · have hlt : fp < fq := lt_of_le_of_ne hfpq heq
      have h1 : v.getD fp 0 + (kp - (fp : ℚ)) * (v.getD cp 0 - v.getD fp 0) ≤
          v.getD cp 0 := by
        have hb : (kp - (fp : ℚ)) * (v.getD cp 0 - v.getD fp 0) ≤
            1 * (v.getD cp 0 - v.getD fp 0) :=
          mul_le_mul_of_nonneg_right (by linarith) (by linarith)
        linarith
      have hcp_fq : cp ≤ fq := by
        rw [hcp]; split <;> omega
      have h2 : v.getD cp 0 ≤ v.getD fq 0 := sorted_getD_mono v hv hcp_fq hfq_lt
      have h3 : v.getD fq 0 ≤
          v.getD fq 0 + (kq - (fq : ℚ)) * (v.getD cq 0 - v.getD fq 0) := by
        have hnn : 0 ≤ (kq - (fq : ℚ)) * (v.getD cq 0 - v.getD fq 0) :=
          mul_nonneg (by linarith) (by linarith)
        linarith
      linarith

lemma pyRound3_mono {x y : ℚ} (h : x ≤ y) : pyRound3 x ≤ pyRound3 y := by
  unfold pyRound3
  have h1 : round (x * 1000) ≤ round (y * 1000) := by
    rw [round_eq, round_eq]
    exact Int.floor_le_floor (by linarith)
  have h2 : ((round (x * 1000) : ℤ) : ℚ) ≤ ((round (y * 1000) : ℤ) : ℚ) := by
    exact_mod_cast h1
  linarith

end Helpers

/-- C5: the prober produces exactly one `Sample` per failure mode, never
raising past its boundary: a non-200 status yields error `HTTP status` with
`ttft = None` and zero tokens; a timeout yields error `Timeout` with
`ttft = None`, zero tokens and `total_time` the elapsed time; any other
failure yields the exception's message with the same null fields. -/
theorem measure_failure_classification (e : Engine) (ev : NetEvent) :
    (∀ st el lines whole total,
        ev = .response st el lines whole total → st ≠ 200 →
        measure_single_request e ev =
          { ttft := none, total_time := el, tokens := 0, success := false,
            error := some ("HTTP " ++ toString st) }) ∧
    (∀ el, ev = .timeoutErr el →
        measure_single_request e ev =
          { ttft := none, total_time := el, tokens := 0, success := false,
            error := some "Timeout" }) ∧
    (∀ msg el, ev = .otherErr msg el →
        measure_single_request e ev =
          { ttft := none, total_time := el, tokens := 0, success := false,
            error := some msg }) := by
  refine ⟨?_, ?_, ?_⟩
  · intro st el lines whole total hev hst
    subst hev
    simp [measure_single_request, hst]
  · intro el hev
    subst hev
    rfl
  · intro msg el hev
    subst hev
    rfl

/-- Witness for C5 at concrete events: an HTTP 500, a timeout, and a
generic transport failure. -/
theorem measure_failure_classification_witness :
    measure_single_request .llamacpp (.response 500 1 [] ⟨false, 0, 0⟩ 2) =
      { ttft := none, total_time := 1, tokens := 0, success := false,
        error := some ("HTTP " ++ toString 500) } ∧
    measure_single_request .ollama (.timeoutErr 2) =
      { ttft := none, total_time := 2, tokens := 0, success := false,
        error := some "Timeout" } ∧
    measure_single_request .vllm (.otherErr "connection reset" 3) =
      { ttft := none, total_time := 3, tokens := 0, success := false,
        error := some "connection reset" } :=
  ⟨(measure_failure_classification .llamacpp _).1 500 1 [] ⟨false, 0, 0⟩ 2 rfl
      (by norm_num),
   (measure_failure_classification .ollama _).2.1 2 rfl,
   (measure_failure_classification .vllm _).2.2 "connection reset" 3 rfl⟩

/-- C6: a request that completes with HTTP 200 is a Success sample; when
its stream parsing yielded zero token events the sample reports the fixed
fallback of 50 tokens, and when it yielded one or more events the sample
reports exactly that parsed count. -/
theorem success_token_fallback (e : Engine) (st : ℕ) (el : ℚ)
    (lines : List StreamLine) (whole : WholeJson) (total : ℚ)
    (hst : st = 200) :
    ((engineParse e lines whole).2 = 0 →
      (measure_single_request e (.response st el lines whole total)).tokens = 50) ∧
    (0 < (engineParse e lines whole).2 →
      (measure_single_request e (.response st el lines whole total)).tokens =
        (engineParse e lines whole).2) ∧
    (measure_single_request e (.response st el lines whole total)).success = true := by
  subst hst
  refine ⟨?_, ?_, ?_⟩
  · intro h
    simp [measure_single_request, h]
  · intro h
    simp [measure_single_request, h, Nat.pos_iff_ne_zero.mp h]
  · simp [measure_single_request]

/-- Witness for C6: an empty llama.cpp stream falls back to 50 tokens; a
one-content-chunk stream reports the parsed count 1. -/
theorem success_token_fallback_witness :
    (measure_single_request .llamacpp
        (.response 200 0 [] ⟨false, 0, 0⟩ 1)).tokens = 50 ∧
    (measure_single_request .llamacpp
        (.response 200 0 [⟨1, true, some ⟨true, false, 0⟩⟩]
          ⟨false, 0, 0⟩ 1)).tokens = 1 :=
  ⟨(success_token_fallback .llamacpp 200 0 [] ⟨false, 0, 0⟩ 1 rfl).1 rfl,
   ((success_token_fallback .llamacpp 200 0 [⟨1, true, some ⟨true, false, 0⟩⟩]
        ⟨false, 0, 0⟩ 1 rfl).2.1
      (by simp [engineParse, streamLoop, llamaLineTokens])).trans rfl⟩

/-- C7: malformed (unparseable) stream lines contribute zero token events
on both streaming paths; an HTTP-200 request is a Success sample with no
error regardless of its lines; and the accumulated token count comes only
from the truthy, valid-JSON lines carrying the engine's content field. -/
theorem malformed_lines_harmless :
    (∀ l : StreamLine, l.parsed = none →
        llamaLineTokens l = 0 ∧ ollamaLineTokens l = 0) ∧
    (∀ (e : Engine) st el lines whole total, st = 200 →
        (measure_single_request e (.response st el lines whole total)).success
            = true ∧
        (measure_single_request e (.response st el lines whole total)).error
            = none) ∧
    (∀ lines : List StreamLine,
        (streamLoop llamaLineTokens lines (none, 0)).2 =
          (streamLoop llamaLineTokens (lines.filter llamaContentLine)
            (none, 0)).2) ∧
    (∀ lines : List StreamLine,
        (streamLoop ollamaLineTokens lines (none, 0)).2 =
          (streamLoop ollamaLineTokens (lines.filter ollamaContentLine)
            (none, 0)).2) := by
  refine ⟨?_, ?_, ?_, ?_⟩
  · intro l hl
    constructor <;> simp [llamaLineTokens, ollamaLineTokens, hl]
  · intro e st el lines whole total hst
    subst hst
    constructor <;> simp [measure_single_request]
  · intro lines
    rw [streamLoop_snd, streamLoop_snd]
    refine congrArg (0 + ·) ?_
    refine (sum_map_filter_of_vanish llamaLineTokens llamaContentLine ?_ lines).symm
    intro l hl
    simp only [llamaContentLine, Bool.and_eq_false_iff] at hl
    rcases hl with hl | hl
    · simp [llamaLineTokens, hl]
    · cases hp : l.parsed with
      | none => simp [llamaLineTokens, hp]
      | some d =>
          rw [hp] at hl
          simp only [Option.elim] at hl
          simp [llamaLineTokens, hp, hl]
  · intro lines
    rw [streamLoop_snd, streamLoop_snd]
    refine congrArg (0 + ·) ?_
    refine (sum_map_filter_of_vanish ollamaLineTokens ollamaContentLine ?_ lines).symm
    intro l hl
    simp only [ollamaContentLine, Bool.and_eq_false_iff] at hl
    rcases hl with hl | hl
    · simp [ollamaLineTokens, hl]
    · cases hp : l.parsed with
      | none => simp [ollamaLineTokens, hp]
      | some d =>
          rw [hp] at hl
          simp only [Option.elim] at hl
          simp [ollamaLineTokens, hp, hl]

/-- Witness for C7: a malformed line contributes zero events, a 200
response around it is still a Success, and the count over a mixed stream
equals the count over its valid content lines. -/
theorem malformed_lines_harmless_witness :
    (llamaLineTokens ⟨1, true, none⟩ = 0 ∧ ollamaLineTokens ⟨1, true, none⟩ = 0) ∧
    (measure_single_request .llamacpp
        (.response 200 0 [⟨1, true, none⟩, ⟨2, true, some ⟨true, false, 0⟩⟩]
          ⟨false, 0, 0⟩ 3)).success = true ∧
    (streamLoop llamaLineTokens
        [⟨1, true, none⟩, ⟨2, true, some ⟨true, false, 0⟩⟩] (none, 0)).2 =
      (streamLoop llamaLineTokens
        ([⟨1, true, none⟩, ⟨2, true, some ⟨true, false, 0⟩⟩].filter
          llamaContentLine) (none, 0)).2 :=
  ⟨malformed_lines_harmless.1 ⟨1, true, none⟩ rfl,
   (malformed_lines_harmless.2.1 .llamacpp 200 0
      [⟨1, true, none⟩, ⟨2, true, some ⟨true, false, 0⟩⟩] ⟨false, 0, 0⟩ 3 rfl).1,
   malformed_lines_harmless.2.2.1
      [⟨1, true, none⟩, ⟨2, true, some ⟨true, false, 0⟩⟩]⟩

/-- C9: when the health check fails, `run_real_benchmark` returns the
unavailable value `none` (not an exception), and its result does not depend
on any load-generator output (the generator is never invoked); when the
health check succeeds, it returns the aggregated result. -/
theorem run_real_benchmark_health_gate :
    (∀ (samples : List Sample) (duration : ℤ),
        run_real_benchmark false samples duration = none) ∧
    (∀ (s s' : List Sample) (duration : ℤ),
        run_real_benchmark false s duration =
          run_real_benchmark false s' duration) ∧
    (∀ (samples : List Sample) (duration : ℤ),
        run_real_benchmark true samples duration =
          some (aggregate_results samples duration)) :=
  ⟨fun _ _ => rfl, fun _ _ _ => rfl, fun _ _ => rfl⟩

/-- C1 counterexample: aggregating the empty sample sequence returns
`error_rate = 1.0`, not the `0` the claim derives from `0/0 := 0` — the
no-successful-samples early return fires before the `if results else 0`
guard can. -/
theorem empty_aggregate_error_rate_counterexample :
    (aggregate_results [] 1).error_rate = 1 ∧
    ¬ (aggregate_results [] 1).error_rate = 0 := by
  constructor
  · rfl
  · intro h
    rw [show (aggregate_results [] 1).error_rate = 1 from rfl] at h
    norm_num at h

/-- C1 amended: whenever there are no successful samples — the empty
sequence included — the aggregator returns `error_rate = 1.0` and every
other numeric field zero, with `failed_count` the full sample count. -/
theorem no_success_aggregate (samples : List Sample) (d : ℤ)
    (h : samples.filter (fun r => r.success) = []) :
    aggregate_results samples d =
      { successful_requests := 0, failed_requests := samples.length,
        ttft_p50 := 0, ttft_p95 := 0, ttft_p99 := 0, tokens_per_sec := 0,
        total_tokens := 0, error_rate := 1 } := by
  have hlen : (samples.filter (fun r => !r.success)).length = samples.length := by
    have := length_filter_split samples
    rw [h] at this
    simpa using this
  simp [aggregate_results, h, hlen]

/-- Witness for the amended C1 at a one-failure sample list. -/
theorem no_success_aggregate_witness :
    aggregate_results [⟨none, 1, 0, false, some "Timeout"⟩] 1 =
      { successful_requests := 0, failed_requests := 1,
        ttft_p50 := 0, ttft_p95 := 0, ttft_p99 := 0, tokens_per_sec := 0,
        total_tokens := 0, error_rate := 1 } :=
  no_success_aggregate [⟨none, 1, 0, false, some "Timeout"⟩] 1 rfl

/-- C4 counterexample: on a llama.cpp stream whose first chunk is
malformed (arriving at elapsed time 1) and whose second chunk is the first
content-bearing one (arriving at time 2), the prober records `ttft = 1` —
the arrival of the first chunk of any kind — while the first
content-bearing chunk arrived at time 2. -/
theorem ttft_first_chunk_counterexample :
    (measure_single_request .llamacpp
        (.response 200 0 [⟨1, true, none⟩, ⟨2, true, some ⟨true, false, 0⟩⟩]
          ⟨false, 0, 0⟩ 3)).ttft = some 1 ∧
    firstContentTime llamaLineTokens
        [⟨1, true, none⟩, ⟨2, true, some ⟨true, false, 0⟩⟩] = some 2 ∧
    (measure_single_request .llamacpp
        (.response 200 0 [⟨1, true, none⟩, ⟨2, true, some ⟨true, false, 0⟩⟩]
          ⟨false, 0, 0⟩ 3)).ttft ≠
      firstContentTime llamaLineTokens
        [⟨1, true, none⟩, ⟨2, true, some ⟨true, false, 0⟩⟩] := by
  refine ⟨rfl, ?_, ?_⟩
  · simp [firstContentTime, List.filter, llamaLineTokens]
  · rw [show (measure_single_request .llamacpp
        (.response 200 0 [⟨1, true, none⟩, ⟨2, true, some ⟨true, false, 0⟩⟩]
          ⟨false, 0, 0⟩ 3)).ttft = some 1 from rfl]
    simp [firstContentTime, List.filter, llamaLineTokens]

/-- C4 amended: on both streaming paths the prober records `ttft` at the
arrival of the first chunk of any kind — content-bearing, malformed or
empty — since the assignment precedes the truthiness and parse checks. -/
theorem ttft_first_any_chunk (e : Engine) (st : ℕ) (el : ℚ)
    (lines : List StreamLine) (whole : WholeJson) (total : ℚ)
    (hst : st = 200) (he : e = .llamacpp ∨ e = .ollama)
    (hl : lines ≠ []) :
    (measure_single_request e (.response st el lines whole total)).ttft =
      some ((lines.head hl).time) := by
  subst hst
  have key : ∀ tok : StreamLine → ℕ,
      (streamLoop tok lines (none, 0)).1 = some ((lines.head hl).time) := by
    intro tok
    rw [streamLoop_fst]
    cases lines with
    | nil => exact absurd rfl hl
    | cons a rest => rfl
  rcases he with he | he <;> subst he <;>
    simp [measure_single_request, engineParse, key]

/-- Witness for the amended C4: a stream whose first chunk is malformed
still stamps `ttft` with that chunk's arrival time. -/
theorem ttft_first_any_chunk_witness :
    (measure_single_request .llamacpp
        (.response 200 0 [⟨1, true, none⟩, ⟨2, true, some ⟨true, false, 0⟩⟩]
          ⟨false, 0, 0⟩ 3)).ttft = some 1 :=
  ttft_first_any_chunk .llamacpp 200 0
    [⟨1, true, none⟩, ⟨2, true, some ⟨true, false, 0⟩⟩] ⟨false, 0, 0⟩ 3 rfl
    (Or.inl rfl) (by simp)

/-- C8: for any sample sequence and any configured duration > 0,
`total_tokens` is the sum of `token_count` over the successful samples and
`tokens_per_sec` is `total_tokens` divided by the configured duration,
rounded to one decimal place. -/
theorem throughput_formula (samples : List Sample) (d : ℤ) (hd : 0 < d) :
    (aggregate_results samples d).total_tokens =
      ((samples.filter (fun r => r.success)).map Sample.tokens).sum ∧
    (aggregate_results samples d).tokens_per_sec =
      pyRound1 (((aggregate_results samples d).total_tokens : ℚ) / (d : ℚ)) := by
  by_cases hs : samples.filter (fun r => r.success) = []
  · rw [hs]
    simp only [aggregate_results, hs, if_pos rfl, List.map_nil, List.sum_nil]
    refine ⟨rfl, ?_⟩
    simp [pyRound1]
  · constructor
    · simp [aggregate_results, hs]
    · simp [aggregate_results, hs, hd]

/-- Witness for C8 at a concrete two-sample list with duration 2. -/
theorem throughput_formula_witness :
    (aggregate_results
        [⟨some 1, 1, 30, true, none⟩, ⟨none, 2, 0, false, some "Timeout"⟩]
        2).total_tokens =
      ((([⟨some 1, 1, 30, true, none⟩, ⟨none, 2, 0, false, some "Timeout"⟩] :
          List Sample).filter (fun r => r.success)).map Sample.tokens).sum ∧
    (aggregate_results
        [⟨some 1, 1, 30, true, none⟩, ⟨none, 2, 0, false, some "Timeout"⟩]
        2).tokens_per_sec =
      pyRound1 (((aggregate_results
        [⟨some 1, 1, 30, true, none⟩, ⟨none, 2, 0, false, some "Timeout"⟩]
        2).total_tokens : ℚ) / ((2 : ℤ) : ℚ)) :=
  throughput_formula
    [⟨some 1, 1, 30, true, none⟩, ⟨none, 2, 0, false, some "Timeout"⟩] 2
    (by norm_num)

/-- C3: for every sample sequence the aggregate's
`successful_requests + failed_requests` equals the number of samples, and
for every non-empty sequence the error rate lies in `[0, 1]`. -/
theorem aggregate_counts_invariant :
    (∀ (samples : List Sample) (d : ℤ),
        (aggregate_results samples d).successful_requests +
          (aggregate_results samples d).failed_requests = samples.length) ∧
    (∀ (samples : List Sample) (d : ℤ), samples ≠ [] →
        0 ≤ (aggregate_results samples d).error_rate ∧
          (aggregate_results samples d).error_rate ≤ 1) := by
  constructor
  · intro samples d
    by_cases hs : samples.filter (fun r => r.success) = []
    · have := length_filter_split samples
      rw [hs] at this
      simp only [aggregate_results, hs, if_pos rfl]
      simpa using this
    · simp only [aggregate_results, hs, if_neg hs]
      exact length_filter_split samples
  · intro samples d hne
    by_cases hs : samples.filter (fun r => r.success) = []
    · simp [aggregate_results, hs]
    · have hpos : (0 : ℚ) < (samples.length : ℚ) := by
        have : 0 < samples.length := List.length_pos.mpr hne
        exact_mod_cast this
      have hle : ((samples.filter (fun r => !r.success)).length : ℚ) ≤
          (samples.length : ℚ) := by
        exact_mod_cast List.length_filter_le _ samples
      have hrw : (aggregate_results samples d).error_rate =
          ((samples.filter (fun r => !r.success)).length : ℚ) /
            (samples.length : ℚ) := by
        simp [aggregate_results, hs, hne]
      rw [hrw]
      constructor
      · positivity
      · rw [div_le_one hpos]
        exact hle

/-- Witness for C3 at a concrete one-sample list. -/
theorem aggregate_counts_invariant_witness :
    0 ≤ (aggregate_results [⟨some 1, 1, 10, true, none⟩] 1).error_rate ∧
      (aggregate_results [⟨some 1, 1, 10, true, none⟩] 1).error_rate ≤ 1 :=
  aggregate_counts_invariant.2 [⟨some 1, 1, 10, true, none⟩] 1 (by simp)

/-- C2: for every non-empty ascending-sorted TTFT list and p ∈ {50, 95, 99}
the source's percentile computes linear interpolation between order
statistics with `c = min(f + 1, n - 1)`; the aggregate reports it rounded
to three decimal places; and on `[0.1, 0.2, 0.3, 0.4, 0.5]` it gives
p50 = 0.3 and p99 = 0.496. -/
theorem percentile_linear_interpolation :
    (∀ (v : List ℚ) (p : ℚ), v ≠ [] → List.Sorted (· ≤ ·) v →
        (p = 50 ∨ p = 95 ∨ p = 99) →
        percentile v p = interpPercentile v p) ∧
    (∀ (samples : List Sample) (d : ℤ),
        samples.filter (fun r => r.success) ≠ [] →
        (aggregate_results samples d).ttft_p50 =
          pyRound3 (percentile
            (sortedTtfts (samples.filter (fun r => r.success))) 50) ∧
        (aggregate_results samples d).ttft_p95 =
          pyRound3 (percentile
            (sortedTtfts (samples.filter (fun r => r.success))) 95) ∧
        (aggregate_results samples d).ttft_p99 =
          pyRound3 (percentile
            (sortedTtfts (samples.filter (fun r => r.success))) 99)) ∧
    percentile [1/10, 2/10, 3/10, 4/10, 5/10] 50 = 3/10 ∧
    percentile [1/10, 2/10, 3/10, 4/10, 5/10] 99 = 62/125 := by
  refine ⟨?_, ?_, ?_, ?_⟩
  · intro v p _ _ hp
    rcases hp with hp | hp | hp <;> subst hp <;>
      exact percentile_eq_interp v _ (by norm_num)
  · intro samples d h
    refine ⟨?_, ?_, ?_⟩ <;> simp [aggregate_results, h]
  · norm_num [percentile, List.getD_cons_succ, List.getD_cons_zero,
      show Int.toNat 2 = 2 from rfl]
    exact List.cons_ne_nil _ _
  · norm_num [percentile, List.getD_cons_succ, List.getD_cons_zero,
      show Int.toNat 3 = 3 from rfl]
    exact List.cons_ne_nil _ _

/-- Witness for C2: the interpolation identity at the concrete sorted list
`[0.1, 0.2, 0.3, 0.4, 0.5]` with p = 50, and the rounded reporting at a
concrete one-sample aggregate. -/
theorem percentile_linear_interpolation_witness :
    percentile [1/10, 2/10, 3/10, 4/10, 5/10] 50 =
      interpPercentile [1/10, 2/10, 3/10, 4/10, 5/10] 50 ∧
    (aggregate_results [⟨some 1, 1, 10, true, none⟩] 1).ttft_p50 =
      pyRound3 (percentile
        (sortedTtfts (([⟨some 1, 1, 10, true, none⟩] : List Sample).filter
          (fun r => r.success))) 50) :=
  ⟨percentile_linear_interpolation.1 [1/10, 2/10, 3/10, 4/10, 5/10] 50
      (List.cons_ne_nil _ _) (by norm_num [List.sorted_cons]) (Or.inl rfl),
   (percentile_linear_interpolation.2.1 [⟨some 1, 1, 10, true, none⟩] 1
      (by simp)).1⟩

/-- C10: in every aggregate built from a non-empty set of successful
samples the reported percentiles are ordered:
`ttft_p50 ≤ ttft_p95 ≤ ttft_p99` — the percentile function is monotone in
p on the ascending-sorted TTFT list and the 3-decimal rounding preserves
the order. -/
theorem percentiles_ordered (samples : List Sample) (d : ℤ)
    (h : samples.filter (fun r => r.success) ≠ []) :
    (aggregate_results samples d).ttft_p50 ≤
        (aggregate_results samples d).ttft_p95 ∧
    (aggregate_results samples d).ttft_p95 ≤
        (aggregate_results samples d).ttft_p99 := by
  have hsorted : List.Sorted (· ≤ ·)
      (sortedTtfts (samples.filter (fun r => r.success))) := by
    unfold sortedTtfts
    exact List.sorted_mergeSort' _
  have h50 : (aggregate_results samples d).ttft_p50 =
      pyRound3 (percentile
        (sortedTtfts (samples.filter (fun r => r.success))) 50) := by
    simp [aggregate_results, h]
  have h95 : (aggregate_results samples d).ttft_p95 =
      pyRound3 (percentile
        (sortedTtfts (samples.filter (fun r => r.success))) 95) := by
    simp [aggregate_results, h]
  have h99 : (aggregate_results samples d).ttft_p99 =
      pyRound3 (percentile
        (sortedTtfts (samples.filter (fun r => r.success))) 99) := by
    simp [aggregate_results, h]
  rw [h50, h95, h99]
  exact ⟨pyRound3_mono (percentile_mono _ hsorted 50 95 (by norm_num)
        (by norm_num) (by norm_num)),
      pyRound3_mono (percentile_mono _ hsorted 95 99 (by norm_num)
        (by norm_num) (by norm_num))⟩

/-- Witness for C10 at a concrete one-success sample list. -/
theorem percentiles_ordered_witness :
    (aggregate_results [⟨some 1, 1, 10, true, none⟩] 1).ttft_p50 ≤
        (aggregate_results [⟨some 1, 1, 10, true, none⟩] 1).ttft_p95 ∧
    (aggregate_results [⟨some 1, 1, 10, true, none⟩] 1).ttft_p95 ≤
        (aggregate_results [⟨some 1, 1, 10, true, none⟩] 1).ttft_p99 :=
  percentiles_ordered [⟨some 1, 1, 10, true, none⟩] 1 (by simp)

end Llamabench
